import Mathlib

/-!
Verification development for the temporal-filter and time-series aggregation
core of the OLA-Ride-Insights dashboard (src/app.py).

The SQL fragments `EVENT_DT_EXPR` and `SUCCESS_WHERE`, the two query helpers
`fetch_minmax` and `fetch_rows`, and the Case 1 granularity / resample logic
are embedded as executable Lean functions.  DATETIME values are represented as
natural numbers: seconds counted from a fixed calendar origin, using the
standard civil-date-to-day-number algorithm, so that calendar hour and day
boundaries coincide with multiples of 3600 and 86400.  SQL NULL is `Option`.
-/

/-- MySQL `TRIM`: remove leading and trailing space characters (U+0020 only). -/
def sqlTrim (s : String) : String :=
  String.mk (((s.toList.dropWhile (fun c => c = ' ')).reverse.dropWhile
      (fun c => c = ' ')).reverse)

/-- MySQL `LOWER` restricted to ASCII letters, character by character. -/
def sqlLower (s : String) : String :=
  String.mk (s.toList.map Char.toLower)

/-- MySQL `COALESCE` on a nullable value. -/
def coalesce (o : Option α) (d : α) : α := o.getD d

/-- Split a character list at every occurrence of the separator character. -/
def splitOnChar (c : Char) : List Char → List (List Char)
  | [] => [[]]
  | x :: xs =>
    match splitOnChar c xs with
    | [] => if x = c then [[], []] else [[x]]
    | y :: ys => if x = c then [] :: y :: ys else (x :: y) :: ys

/-- Numeric value of a nonempty all-digit character list, `none` otherwise. -/
def digitsVal (l : List Char) : Option Nat :=
  if l ≠ [] ∧ l.all Char.isDigit then
    some (l.foldl (fun a c => a * 10 + (c.toNat - 48)) 0)
  else none

/-- Calendar date-time record used while parsing DATETIME literals. -/
structure Civil where
  y : Nat
  m : Nat
  d : Nat
  hh : Nat
  mi : Nat
  ss : Nat
deriving DecidableEq

/-- Day number of a civil date (days since 0000-03-01), the standard
era-based civil calendar algorithm, valid for years 1 through 9999.
Consecutive calendar days map to consecutive numbers. -/
def daysFromCivil (y m d : Nat) : Nat :=
  let yAdj := if m ≤ 2 then y - 1 else y
  let era := yAdj / 400
  let yoe := yAdj % 400
  let mp := (m + 9) % 12
  let doy := (153 * mp + 2) / 5 + d - 1
  let doe := yoe * 365 + yoe / 4 - yoe / 100 + doy
  era * 146097 + doe

/-- Seconds-since-origin encoding of a civil date-time.  Calendar day
boundaries are multiples of 86400 and hour boundaries multiples of 3600. -/
def toSec (c : Civil) : Nat :=
  daysFromCivil c.y c.m c.d * 86400 + c.hh * 3600 + c.mi * 60 + c.ss

/-- Parse the date part `Y-M-D` of a MySQL DATETIME literal, with range
checks; years 1 through 9999, months 1-12, days 1-31. -/
def parseDatePart (l : List Char) : Option (Nat × Nat × Nat) :=
  match splitOnChar '-' l with
  | [ys, ms, ds] =>
    match digitsVal ys, digitsVal ms, digitsVal ds with
    | some y, some m, some d =>
      if 1 ≤ y ∧ y ≤ 9999 ∧ 1 ≤ m ∧ m ≤ 12 ∧ 1 ≤ d ∧ d ≤ 31 then
        some (y, m, d)
      else none
    | _, _, _ => none
  | _ => none

/-- Parse the time part `H:M` or `H:M:S` of a MySQL DATETIME literal; a time
lacking seconds is padded with zero seconds rather than rejected. -/
def parseTimePart (l : List Char) : Option (Nat × Nat × Nat) :=
  match splitOnChar ':' l with
  | [hs, ms] =>
    match digitsVal hs, digitsVal ms with
    | some h, some mi => if h ≤ 23 ∧ mi ≤ 59 then some (h, mi, 0) else none
    | _, _ => none
  | [hs, ms, ss] =>
    match digitsVal hs, digitsVal ms, digitsVal ss with
    | some h, some mi, some s =>
      if h ≤ 23 ∧ mi ≤ 59 ∧ s ≤ 59 then some (h, mi, s) else none
    | _, _, _ => none
  | _ => none

/-- Parse a string as a MySQL DATETIME value: either `DATE` (midnight) or
`DATE TIME` separated by spaces.  Unparseable input gives `none`, the model
of SQL NULL (MySQL CAST yields NULL with a warning, never an error). -/
def parseCivil (s : String) : Option Civil :=
  match (splitOnChar ' ' s.toList).filter (fun p => p ≠ []) with
  | [dl] => (parseDatePart dl).map (fun t => ⟨t.1, t.2.1, t.2.2, 0, 0, 0⟩)
  | [dl, tl] =>
    match parseDatePart dl, parseTimePart tl with
    | some td, some tt => some ⟨td.1, td.2.1, td.2.2, tt.1, tt.2.1, tt.2.2⟩
    | _, _ => none
  | _ => none

/-- Parse a string as a DATETIME and encode it as seconds since the origin. -/
def parseDT (s : String) : Option Nat := (parseCivil s).map toSec

/-- MySQL `CAST(x AS DATETIME)` on a nullable string: NULL in, NULL out;
unparseable in, NULL out. -/
def castDatetime (s : Option String) : Option Nat := s.bind parseDT

/-- Zero-padded two-digit decimal rendering of a number below 100. -/
def pad2 (n : Nat) : List Char :=
  [Char.ofNat (48 + n / 10 % 10), Char.ofNat (48 + n % 10)]

/-- Zero-padded four-digit decimal rendering of a number below 10000. -/
def pad4 (n : Nat) : List Char :=
  [Char.ofNat (48 + n / 1000 % 10), Char.ofNat (48 + n / 100 % 10),
   Char.ofNat (48 + n / 10 % 10), Char.ofNat (48 + n % 10)]

/-- MySQL `DATE(x)` followed by string conversion (as happens inside
`CONCAT`): the date portion of a parseable date or date-time string,
rendered zero-padded as `YYYY-MM-DD`; NULL when `x` does not parse. -/
def sqlDateStr (s : String) : Option String :=
  (parseCivil s).map (fun c =>
    String.mk (pad4 c.y ++ [Char.ofNat 45] ++ pad2 c.m ++ [Char.ofNat 45] ++ pad2 c.d))

/-- One row of the `bookings` table, restricted to the columns the temporal
core reads; every SQL column is nullable. -/
structure Row where
  date : Option String
  time : Option String
  booking_status : Option String
  booking_id : Option String
  booking_value : Option String
deriving DecidableEq

/-- The SQL fragment `EVENT_DT_EXPR` of src/app.py lines 25-32:
`CAST(CASE WHEN COALESCE(TRIM(time),'') <> '' THEN
CONCAT(DATE(date), ' ', TRIM(time)) ELSE date END AS DATETIME)`.
`CONCAT` propagates NULL, so an unparseable date makes the branch NULL. -/
def eventDt (r : Row) : Option Nat :=
  let tt := coalesce ((r.time).map sqlTrim) ""
  castDatetime
    (if tt ≠ "" then
      ((r.date).bind sqlDateStr).map (fun ds => ds ++ " " ++ tt)
     else r.date)

/-- The SQL fragment `SUCCESS_WHERE` of src/app.py lines 35-44, with its
alternate zero-cancellation branch commented out in the source:
`LOWER(COALESCE(booking_status,'')) = 'success'`.  Note: no `TRIM`. -/
def successWhere (r : Row) : Bool :=
  sqlLower (coalesce r.booking_status "") = "success"

/-- The Case 9 query predicate of src/app.py lines 720-730:
`LOWER(TRIM(booking_status)) = 'success' AND booking_value IS NOT NULL`.
A NULL status makes the comparison NULL, hence not selected. -/
def case9Where (r : Row) : Bool :=
  (match r.booking_status with
   | none => false
   | some s => sqlLower (sqlTrim s) = "success") && (r.booking_value).isSome

/-- MySQL `x BETWEEN a AND b` applied to the (possibly NULL) event
timestamp: inclusive on both endpoints, and a NULL operand makes the
comparison NULL, which filters the row out. -/
def between (t : Option Nat) (a b : Nat) : Bool :=
  match t with
  | none => false
  | some u => decide (a ≤ u) && decide (u ≤ b)

/-- The range part of the WHERE clause built by `fetch_rows`
(src/app.py lines 69-71): the condition `EVENT_DT_EXPR BETWEEN %s AND %s` is
added only when `apply_filter and start_dt and end_dt` is truthy, mirroring
the Python short-circuit; otherwise the row is unconstrained. -/
def rangeCond (apply : Bool) (a b : Option Nat) (t : Option Nat) : Bool :=
  match apply with
  | false => true
  | true =>
    match a, b with
    | some x, some y => between t x y
    | _, _ => true

/-- The positional parameter list bound by `fetch_rows` (src/app.py line 86):
`[start_dt, end_dt]` when the range condition is active, else `None`. -/
def fetchParams (apply : Bool) (a b : Option Nat) : Option (List Nat) :=
  match apply with
  | false => none
  | true =>
    match a, b with
    | some x, some y => some [x, y]
    | _, _ => none

/-- The full row predicate of the WHERE clause built by `fetch_rows`:
conjunction of `SUCCESS_WHERE` (when requested) and the range condition. -/
def rowPred (s : Bool) (a b : Option Nat) (apply : Bool) (r : Row) : Bool :=
  (!s || successWhere r) && rangeCond apply a b (eventDt r)

/-- One row of a `fetch_rows` result: the computed `event_dt` column
(line 77 of src/app.py) alongside the source row. -/
structure FetchedRow where
  event_dt : Option Nat
  row : Row
deriving DecidableEq

/-- Ascending comparison on the nullable `event_dt` sort key; MySQL sorts
NULLs first under `ORDER BY ... ASC`. -/
def optKeyLe (x y : Option Nat) : Bool :=
  match x, y with
  | none, _ => true
  | some _, none => false
  | some a, some b => decide (a ≤ b)

/-- Insert one element into a list sorted by the boolean comparison. -/
def insertByKey (le : α → α → Bool) (x : α) : List α → List α
  | [] => [x]
  | y :: ys => if le x y then x :: y :: ys else y :: insertByKey le x ys

/-- Insertion sort by a boolean comparison; models `ORDER BY event_dt`. -/
def sortByKey (le : α → α → Bool) : List α → List α
  | [] => []
  | x :: xs => insertByKey le x (sortByKey le xs)

/-- The query helper `fetch_rows` of src/app.py lines 61-90, evaluated over
an explicit `bookings` table: select every column plus the computed
`event_dt`, keep the rows satisfying the composed WHERE clause, and order by
`event_dt` ascending. -/
def fetch_rows (table : List Row) (successful_only : Bool)
    (start_dt end_dt : Option Nat) (apply_filter : Bool) : List FetchedRow :=
  sortByKey (fun x y => optKeyLe x.event_dt y.event_dt)
    ((table.filter (rowPred successful_only start_dt end_dt apply_filter)).map
      (fun r => ⟨eventDt r, r⟩))

/-- Minimum of a list of timestamps, `none` on the empty list; models the
SQL `MIN` aggregate, which skips NULLs and returns NULL on no rows. -/
def listMin (l : List Nat) : Option Nat :=
  l.foldr (fun x acc =>
    match acc with
    | none => some x
    | some y => some (Nat.min x y)) none

/-- Maximum of a list of timestamps, `none` on the empty list; models the
SQL `MAX` aggregate. -/
def listMax (l : List Nat) : Option Nat :=
  l.foldr (fun x acc =>
    match acc with
    | none => some x
    | some y => some (Nat.max x y)) none

/-- The query helper `fetch_minmax` of src/app.py lines 46-59:
`SELECT MIN(event_dt), MAX(event_dt)` over the subquery computing
`EVENT_DT_EXPR` for the rows passing `SUCCESS_WHERE` (when requested). -/
def fetch_minmax (table : List Row) (successful_only : Bool) :
    Option Nat × Option Nat :=
  let sub := ((table.filter (fun r => !successful_only || successWhere r)).map
    eventDt).filterMap id
  (listMin sub, listMax sub)

/-- Resample frequency of the Case 1 line chart: `"H"` hourly or `"D"` daily. -/
inductive Freq where
  | H
  | D
deriving DecidableEq

/-- Bucket width in seconds of a resample frequency. -/
def freqWidth : Freq → Nat
  | .H => 3600
  | .D => 86400

/-- The auto-granularity policy of src/app.py line 165:
hourly when `(end_dt - start_dt).days <= 3`, else daily.  On seconds-encoded
timestamps the whole-day count of the difference is truncating division by
86400 (negative Python timedeltas and truncated Nat subtraction both take the
hourly branch when the end precedes the start). -/
def autoGranularity (start_s end_s : Nat) : Freq :=
  if (end_s - start_s) / 86400 ≤ 3 then .H else .D

/-- One resample entry: the `event_dt` index value of a row together with
the value of the counted column (`booking_id`, nullable) of that row. -/
abbrev Entry := Nat × Option String

/-- Value of one resample bucket: pandas `count()` on the selected column
counts the entries whose timestamp falls in bucket `b` at width `w` (the
bucket of a timestamp `t` being `t / w`) and whose counted column is
non-null — NULL `booking_id` values are skipped. -/
def bucketCount (w b : Nat) (es : List Entry) : Nat :=
  (es.filter (fun e => decide (e.1 / w = b) && e.2.isSome)).length

/-- The pandas `resample(freq)[count_col].count()` step of src/app.py lines
170-177 (`count_col` is `booking_id`, which the SELECT always provides):
one bucket for every width-aligned interval from the floor of the earliest
index timestamp to the floor of the latest — bucket extent depends only on
the index — each carrying the count of non-null counted-column values
inside it (0 for empty buckets); empty input gives no buckets. -/
def resampleCount (w : Nat) : List Entry → List (Nat × Nat)
  | [] => []
  | e :: es =>
    let lo := ((es.map Prod.fst).foldr min e.1) / w
    let hi := ((es.map Prod.fst).foldr max e.1) / w
    (List.range (hi - lo + 1)).map
      (fun i => ((lo + i) * w, bucketCount w (lo + i) (e :: es)))

/-- The rows kept for temporal views (src/app.py lines 166-168):
`pd.to_datetime(..., errors="coerce")` followed by `dropna` keeps exactly the
rows whose `event_dt` is present. -/
def temporalRows (df : List FetchedRow) : List FetchedRow :=
  df.filter (fun p => p.event_dt.isSome)

/-- The Case 1 time-series pipeline (src/app.py lines 166-177): coerce
`event_dt`, drop unparseable rows, set `event_dt` as index, resample at the
chosen frequency and count the non-null `booking_id` values per bucket. -/
def bucketSeries (f : Freq) (df : List FetchedRow) : List (Nat × Nat) :=
  resampleCount (freqWidth f)
    (df.filterMap (fun p => (p.event_dt).map (fun t => (t, p.row.booking_id))))

/-- Outcome of one Case 1 interaction; the `validationError` constructor
exists so the absence of any validation path can be stated, the source has
no such path. -/
inductive FlowResult where
  | validationError (msg : String)
  | queried (df : List FetchedRow)
deriving DecidableEq

/-- The Case 1 request flow around the fetch (src/app.py lines 145-151):
`start_dt`/`end_dt` stay `None` unless the filter is enabled and the date
range widget returned a two-element selection, in which case each bound is
`datetime.combine(date, time)`, here day-number times 86400 plus the
seconds-of-day; then `fetch_rows` runs unconditionally. -/
def case1Run (table : List Row) (successful_only apply_filter : Bool)
    (date_range : Option (Nat × Nat)) (t1 t2 : Nat) : FlowResult :=
  let bounds : Option Nat × Option Nat :=
    match apply_filter, date_range with
    | true, some (d0, d1) => (some (d0 * 86400 + t1), some (d1 * 86400 + t2))
    | _, _ => (none, none)
  .queried (fetch_rows table successful_only bounds.1 bounds.2 apply_filter)

theorem insertByKey_perm (le : α → α → Bool) (x : α) (l : List α) :
    (insertByKey le x l).Perm (x :: l) := by
  induction l with
  | nil => exact List.Perm.refl _
  | cons y ys ih =>
    simp only [insertByKey]
    split
    · exact List.Perm.refl _
    · exact (ih.cons y).trans (List.Perm.swap x y ys)

theorem sortByKey_perm (le : α → α → Bool) (l : List α) :
    (sortByKey le l).Perm l := by
  induction l with
  | nil => exact List.Perm.refl _
  | cons x xs ih => exact (insertByKey_perm le x _).trans (ih.cons x)

theorem listMin_perm {l₁ l₂ : List Nat} (h : l₁.Perm l₂) :
    listMin l₁ = listMin l₂ := by
  induction h with
  | nil => rfl
  | cons x _ ih => simp only [listMin, List.foldr_cons] at ih ⊢; rw [ih]
  | swap x y l =>
    simp only [listMin, List.foldr_cons]
    cases List.foldr (fun x acc =>
        match acc with
        | none => some x
        | some y => some (Nat.min x y)) none l with
    | none => simp [Nat.min_comm]
    | some z => simp [Nat.min_left_comm x y z]
  | trans _ _ ih₁ ih₂ => exact ih₁.trans ih₂

theorem listMax_perm {l₁ l₂ : List Nat} (h : l₁.Perm l₂) :
    listMax l₁ = listMax l₂ := by
  induction h with
  | nil => rfl
  | cons x _ ih => simp only [listMax, List.foldr_cons] at ih ⊢; rw [ih]
  | swap x y l =>
    simp only [listMax, List.foldr_cons]
    cases List.foldr (fun x acc =>
        match acc with
        | none => some x
        | some y => some (Nat.max x y)) none l with
    | none => simp [Nat.max_comm]
    | some z => simp [Nat.max_left_comm x y z]
  | trans _ _ ih₁ ih₂ => exact ih₁.trans ih₂

theorem div_eq_iff_range {w b t : Nat} (hw : 0 < w) :
    t / w = b ↔ b * w ≤ t ∧ t < (b + 1) * w := by
  rw [← Nat.le_div_iff_mul_le hw, ← Nat.div_lt_iff_lt_mul hw]
  omega

/-- C1.  The Temporal Normalizer: when the time field is non-blank after
trimming, the event timestamp is the date portion of the date field
concatenated with the trimmed time, parsed as DATE TIME; otherwise it is the
date field parsed whole.  Parse failure gives `none` (SQL NULL), never an
error: `eventDt` is a total function into `Option`. -/
theorem c1_normalizer (r : Row) :
    (∀ t, r.time = some t → sqlTrim t ≠ "" →
        eventDt r = ((r.date).bind sqlDateStr).bind
          (fun ds => parseDT (ds ++ " " ++ sqlTrim t)))
  ∧ (coalesce ((r.time).map sqlTrim) "" = "" →
        eventDt r = (r.date).bind parseDT) := by
  constructor
  · intro t ht hnb
    cases hd : r.date with
    | none => simp [eventDt, castDatetime, ht, hd, coalesce, hnb]
    | some d =>
      cases hds : sqlDateStr d with
      | none => simp [eventDt, castDatetime, ht, hd, hds, coalesce, hnb]
      | some ds => simp [eventDt, castDatetime, ht, hd, hds, coalesce, hnb]
  · intro hblank
    simp [eventDt, castDatetime, hblank]

/-- Row whose status equals the success marker only after trimming the
surrounding whitespace. -/
def rowSpaced : Row :=
  ⟨some "2024-01-01", none, some " Success ", some "B1", some "100"⟩

/-- C2 as stated fails: the composed predicate's success condition
(`SUCCESS_WHERE`) lowercases but never trims, so the status value
" Success ", equal to the marker up to surrounding whitespace and letter
case, is not selected. -/
theorem c2_counterexample :
    ¬ (successWhere rowSpaced = true ↔
        sqlLower (sqlTrim (coalesce rowSpaced.booking_status "")) = "success") := by
  decide

/-- C2 amended.  The composed predicate's success condition is true iff the
status field is present and its case-normalized (not trimmed) value equals
the success marker; the separate Case 9 query is the one that also trims,
and additionally requires a non-NULL booking value. -/
theorem c2_amended (r : Row) :
    (successWhere r = true ↔
        ∃ s, r.booking_status = some s ∧ sqlLower s = "success")
  ∧ (case9Where r = true ↔
        ∃ s, r.booking_status = some s ∧ sqlLower (sqlTrim s) = "success"
          ∧ (r.booking_value).isSome = true) := by
  constructor
  · cases hb : r.booking_status with
    | none =>
      simp only [successWhere, coalesce, hb, Option.getD_none]
      constructor
      · intro h
        exact absurd (of_decide_eq_true h) (by decide)
      · rintro ⟨s, hs, -⟩
        exact absurd hs (by simp)
    | some s => simp [successWhere, coalesce, hb]
  · cases hb : r.booking_status with
    | none => simp [case9Where, hb]
    | some s => simp [case9Where, hb, and_assoc]

/-- C3.  Disabling range filtering ignores any bounds that are still set:
the rows and the bound parameters are those of a rangeless query. -/
theorem c3_disabled (table : List Row) (s : Bool) (a b : Option Nat) :
    fetch_rows table s a b false = fetch_rows table s none none false
  ∧ fetchParams false a b = fetchParams false none none :=
  ⟨rfl, rfl⟩

/-- C6.  With range filtering active and both bounds present, a row passes
the pushed-down range condition iff its normalized event timestamp exists
and lies in the inclusive window, and exactly the two parameters
`[start, end]` are bound in that order. -/
theorem c6_range (r : Row) (a b : Nat) :
    (rangeCond true (some a) (some b) (eventDt r) = true ↔
        ∃ u, eventDt r = some u ∧ a ≤ u ∧ u ≤ b)
  ∧ fetchParams true (some a) (some b) = some [a, b]
  ∧ (fetchParams true (some a) (some b)).map List.length = some 2 := by
  refine ⟨?_, rfl, rfl⟩
  cases ht : eventDt r with
  | none => simp [rangeCond, between, ht]
  | some u => simp [rangeCond, between, ht]

/-- C10.  With range filtering enabled but exactly one bound present, no
range condition is added and no parameters are bound: the result is that of
a fully disabled range, the missing bound being silently ignored. -/
theorem c10_one_bound (table : List Row) (s : Bool) (x : Nat) :
    fetch_rows table s (some x) none true = fetch_rows table s none none false
  ∧ fetch_rows table s none (some x) true = fetch_rows table s none none false
  ∧ fetchParams true (some x) none = none
  ∧ fetchParams true none (some x) = none :=
  ⟨rfl, rfl, rfl, rfl⟩

theorem foldrMin_mem (t : Nat) (ts : List Nat) : ts.foldr min t ∈ t :: ts := by
  induction ts with
  | nil => simp
  | cons y ys ih =>
    simp only [List.foldr_cons]
    rcases min_choice y (ys.foldr min t) with h | h
    · rw [h]
      exact List.mem_cons_of_mem t (List.mem_cons_self y ys)
    · rw [h]
      rcases List.mem_cons.mp ih with h2 | h2
      · exact List.mem_cons.mpr (Or.inl h2)
      · exact List.mem_cons_of_mem _ (List.mem_cons_of_mem _ h2)

theorem foldrMax_mem (t : Nat) (ts : List Nat) : ts.foldr max t ∈ t :: ts := by
  induction ts with
  | nil => simp
  | cons y ys ih =>
    simp only [List.foldr_cons]
    rcases max_choice y (ys.foldr max t) with h | h
    · rw [h]
      exact List.mem_cons_of_mem t (List.mem_cons_self y ys)
    · rw [h]
      rcases List.mem_cons.mp ih with h2 | h2
      · exact List.mem_cons.mpr (Or.inl h2)
      · exact List.mem_cons_of_mem _ (List.mem_cons_of_mem _ h2)

theorem foldrMin_le (t : Nat) (ts : List Nat) :
    ∀ x ∈ t :: ts, ts.foldr min t ≤ x := by
  induction ts with
  | nil =>
    intro x hx
    rcases List.mem_cons.mp hx with rfl | h2
    · exact Nat.le_refl _
    · exact absurd h2 (List.not_mem_nil x)
  | cons y ys ih =>
    intro x hx
    simp only [List.foldr_cons]
    rcases List.mem_cons.mp hx with rfl | hx2
    · exact Nat.le_trans (min_le_right _ _) (ih x (List.mem_cons_self _ _))
    · rcases List.mem_cons.mp hx2 with rfl | hx3
      · exact min_le_left _ _
      · exact Nat.le_trans (min_le_right _ _) (ih x (List.mem_cons_of_mem _ hx3))

theorem le_foldrMax (t : Nat) (ts : List Nat) :
    ∀ x ∈ t :: ts, x ≤ ts.foldr max t := by
  induction ts with
  | nil =>
    intro x hx
    rcases List.mem_cons.mp hx with rfl | h2
    · exact Nat.le_refl _
    · exact absurd h2 (List.not_mem_nil x)
  | cons y ys ih =>
    intro x hx
    simp only [List.foldr_cons]
    rcases List.mem_cons.mp hx with rfl | hx2
    · exact Nat.le_trans (ih x (List.mem_cons_self _ _)) (le_max_right _ _)
    · rcases List.mem_cons.mp hx2 with rfl | hx3
      · exact le_max_left _ _
      · exact Nat.le_trans (ih x (List.mem_cons_of_mem _ hx3)) (le_max_right _ _)

/-- Row dated 2024-01-01 at 09:00. -/
def rowH9 : Row :=
  ⟨some "2024-01-01", some "09:00:00", some "Success", some "B4", some "120"⟩

/-- Row dated 2024-01-01 at 10:00. -/
def rowH10 : Row :=
  ⟨some "2024-01-01", some "10:00:00", some "Success", some "B5", some "80"⟩

/-- Fetched fixture confined to the single calendar day 2024-01-01. -/
def fixtureOneDay : List FetchedRow :=
  [⟨eventDt rowH9, rowH9⟩, ⟨eventDt rowH10, rowH10⟩]

/-- C4 as stated fails: an hourly series over a fixture confined to one
calendar day (rows at 09:00 and 10:00 of 2024-01-01, day number 739191) has
2 buckets, not 24 — the resample covers only the span between the earliest
and latest timestamp, not the whole day. -/
theorem c4_counterexample :
    (fixtureOneDay.filterMap (fun p => p.event_dt)).map (fun u => u / 86400)
        = [739191, 739191]
  ∧ (bucketSeries Freq.H fixtureOneDay).length = 2
  ∧ 2 ≠ 24 := by decide

/-- Behaviour of the bucketer on a nonempty timestamp list at width `w`:
bucket starts run consecutively (no gaps) from the floor of the earliest
timestamp to the floor of the latest; every bucket carries the count of the
timestamps in its half-open interval, hence value 0 when it is empty; with
daily buckets a fixture spanning exactly two consecutive calendar days gives
2 buckets; with hourly buckets a fixture confined to one calendar day gives
at most 24 buckets. -/
def bucketSpecAt (w : Nat) (t : Entry) (ts : List Entry) : Prop :=
    (resampleCount w (t :: ts)).length
      = ((ts.map Prod.fst).foldr max t.1) / w
          - ((ts.map Prod.fst).foldr min t.1) / w + 1
  ∧ (resampleCount w (t :: ts)).map Prod.fst
      = (List.range (((ts.map Prod.fst).foldr max t.1) / w
            - ((ts.map Prod.fst).foldr min t.1) / w + 1)).map
          (fun i => (((ts.map Prod.fst).foldr min t.1) / w + i) * w)
  ∧ (∀ p ∈ resampleCount w (t :: ts),
        p.2 = ((t :: ts).filter
          (fun e => decide (p.1 ≤ e.1 ∧ e.1 < p.1 + w) && e.2.isSome)).length)
  ∧ (∀ d, (∀ e ∈ t :: ts, e.1 / 86400 = d ∨ e.1 / 86400 = d + 1) →
        (∃ e ∈ t :: ts, e.1 / 86400 = d) →
        (∃ e ∈ t :: ts, e.1 / 86400 = d + 1) →
        (resampleCount 86400 (t :: ts)).length = 2)
  ∧ (∀ d, (∀ e ∈ t :: ts, e.1 / 86400 = d) →
        (resampleCount 3600 (t :: ts)).length ≤ 24)

/-- C4 amended.  The bucketer emits one bucket per width-aligned interval
from the floor of the earliest included timestamp to the floor of the
latest, consecutively so the series has no time gaps; each bucket's value is
the number of its rows carrying a non-null counted column (`booking_id`),
hence 0 for buckets containing no rows; granularity=daily on a fixture
spanning 2 consecutive calendar days yields exactly 2 buckets, while
granularity=hourly on a fixture confined to one day yields
lastHour - firstHour + 1 buckets, which is at most 24 and equals 24 only
when the fixture touches both hour 0 and hour 23. -/
theorem c4_amended (w : Nat) (t : Entry) (ts : List Entry) (hw : 0 < w) :
    bucketSpecAt w t ts := by
  refine ⟨?_, ?_, ?_, ?_, ?_⟩
  · simp [resampleCount]
  · simp [resampleCount, List.map_map, Function.comp]
  · intro p hp
    simp only [resampleCount, List.mem_map, List.mem_range] at hp
    obtain ⟨i, -, rfl⟩ := hp
    simp only [bucketCount]
    congr 1
    apply List.filter_congr
    intro e _
    congr 1
    simp only [decide_eq_decide]
    rw [div_eq_iff_range hw]
    constructor
    · rintro ⟨h1, h2⟩
      exact ⟨h1, by rw [Nat.succ_mul] at h2; omega⟩
    · rintro ⟨h1, h2⟩
      exact ⟨h1, by rw [Nat.succ_mul]; omega⟩
  · intro d hall ⟨x0, hx0, hx0d⟩ ⟨x1, hx1, hx1d⟩
    have hproj : ∀ e ∈ t :: ts, e.1 ∈ t.1 :: ts.map Prod.fst := by
      intro e he
      rcases List.mem_cons.mp he with rfl | he2
      · exact List.mem_cons_self _ _
      · exact List.mem_cons_of_mem _ (List.mem_map_of_mem _ he2)
    have hall2 : ∀ y ∈ t.1 :: ts.map Prod.fst,
        y / 86400 = d ∨ y / 86400 = d + 1 := by
      intro y hy
      rcases List.mem_cons.mp hy with rfl | hy2
      · exact hall t (List.mem_cons_self _ _)
      · obtain ⟨e, he, rfl⟩ := List.mem_map.mp hy2
        exact hall e (List.mem_cons_of_mem _ he)
    have hminmem := foldrMin_mem t.1 (ts.map Prod.fst)
    have hmaxmem := foldrMax_mem t.1 (ts.map Prod.fst)
    have hminle := foldrMin_le t.1 (ts.map Prod.fst) x0.1 (hproj x0 hx0)
    have hmaxge := le_foldrMax t.1 (ts.map Prod.fst) x1.1 (hproj x1 hx1)
    have hmind : ((ts.map Prod.fst).foldr min t.1) / 86400 = d := by
      have h1 := hall2 _ hminmem
      have h2 : ((ts.map Prod.fst).foldr min t.1) / 86400 ≤ x0.1 / 86400 :=
        Nat.div_le_div_right hminle
      omega
    have hmaxd : ((ts.map Prod.fst).foldr max t.1) / 86400 = d + 1 := by
      have h1 := hall2 _ hmaxmem
      have h2 : x1.1 / 86400 ≤ ((ts.map Prod.fst).foldr max t.1) / 86400 :=
        Nat.div_le_div_right hmaxge
      omega
    simp [resampleCount, hmind, hmaxd]
  · intro d hall
    have hall2 : ∀ y ∈ t.1 :: ts.map Prod.fst, y / 86400 = d := by
      intro y hy
      rcases List.mem_cons.mp hy with rfl | hy2
      · exact hall t (List.mem_cons_self _ _)
      · obtain ⟨e, he, rfl⟩ := List.mem_map.mp hy2
        exact hall e (List.mem_cons_of_mem _ he)
    have hmind := hall2 _ (foldrMin_mem t.1 (ts.map Prod.fst))
    have hmaxd := hall2 _ (foldrMax_mem t.1 (ts.map Prod.fst))
    have hminh : 24 * d ≤ ((ts.map Prod.fst).foldr min t.1) / 3600 := by
      rw [Nat.le_div_iff_mul_le (by omega)]
      have := (div_eq_iff_range (by omega : 0 < 86400)).mp hmind
      omega
    have hmaxh : ((ts.map Prod.fst).foldr max t.1) / 3600 < 24 * (d + 1) := by
      rw [Nat.div_lt_iff_lt_mul (by omega)]
      have := (div_eq_iff_range (by omega : 0 < 86400)).mp hmaxd
      omega
    simp only [resampleCount, List.length_map, List.length_range]
    omega

/-- Concrete witness for the amended C4: the one-day fixture at hours 9 and
10 of day 739191 with non-null booking identifiers, hourly width. -/
theorem c4_amended_witness :
    0 < 3600 ∧ bucketSpecAt 3600 (739191 * 86400 + 32400, some "B4")
      [(739191 * 86400 + 36000, some "B5")] :=
  ⟨by decide,
   c4_amended 3600 (739191 * 86400 + 32400, some "B4")
     [(739191 * 86400 + 36000, some "B5")] (by decide)⟩

/-- Row carrying both a date-time valued date field and a separate time. -/
def rowBoth : Row :=
  ⟨some "2024-01-01 05:00:00", some " 09:30 ", some "Success", some "B2", none⟩

/-- Row with a blank time field. -/
def rowDateOnly : Row :=
  ⟨some "2024-01-02 18:15:00", some "   ", some "Success", some "B3", none⟩

/-- Concrete witness for C1: both branches of the normalizer at explicit
rows. -/
theorem c1_normalizer_witness :
    eventDt rowBoth = ((rowBoth.date).bind sqlDateStr).bind
        (fun ds => parseDT (ds ++ " " ++ sqlTrim " 09:30 "))
  ∧ eventDt rowDateOnly = (rowDateOnly.date).bind parseDT :=
  ⟨(c1_normalizer rowBoth).1 " 09:30 " rfl (by decide),
   (c1_normalizer rowDateOnly).2 (by decide)⟩

/-- C5 as stated fails: the requested range 2024-01-01 00:00 to
2024-01-04 23:59 spans exactly 4 calendar days (day numbers 739191 through
739194), yet `(end_dt - start_dt).days` is 3, so the code selects hourly
where the claim demands daily. -/
theorem c5_counterexample :
    toSec ⟨2024, 1, 4, 23, 59, 0⟩ / 86400 - toSec ⟨2024, 1, 1, 0, 0, 0⟩ / 86400 + 1 = 4
  ∧ autoGranularity (toSec ⟨2024, 1, 1, 0, 0, 0⟩) (toSec ⟨2024, 1, 4, 23, 59, 0⟩) = Freq.H
  ∧ Freq.H ≠ Freq.D := by decide

/-- C5 amended.  The auto-granularity policy selects hourly exactly when the
duration end minus start is under 4 full days (whole-day count of the
difference at most 3); consequently, with the default widget times (start
00:00, end 23:59), a date range covering k calendar days selects hourly iff
k is at most 4 — so 3 and 4 calendar days select hourly and 5 select daily. -/
theorem c5_amended (s e : Nat) :
    (autoGranularity s e = Freq.H ↔ e - s < 4 * 86400)
  ∧ (∀ d k, 0 < k →
        (autoGranularity (d * 86400) ((d + k - 1) * 86400 + 86340) = Freq.H ↔
          k ≤ 4)) := by
  have hH : ∀ a b : Nat, autoGranularity a b = Freq.H ↔ b - a < 4 * 86400 := by
    intro a b
    have h4 : (b - a) / 86400 ≤ 3 ↔ b - a < 4 * 86400 := by
      constructor
      · intro h
        exact (Nat.div_lt_iff_lt_mul (by omega : (0:Nat) < 86400)).mp (by omega)
      · intro h
        have := (Nat.div_lt_iff_lt_mul (by omega : (0:Nat) < 86400)).mpr h
        omega
    unfold autoGranularity
    constructor
    · intro h
      by_contra hc
      rw [if_neg (fun hle => hc (h4.mp hle))] at h
      exact Freq.noConfusion h
    · intro h
      rw [if_pos (h4.mpr h)]
  refine ⟨hH s e, ?_⟩
  intro d k hk
  rw [hH]
  omega

/-- Concrete witness for the amended C5: a 4-calendar-day range still
selects hourly, a 5-calendar-day range selects daily. -/
theorem c5_amended_witness :
    (autoGranularity (739191 * 86400) (739194 * 86400 + 86340) = Freq.H ↔
        739194 * 86400 + 86340 - 739191 * 86400 < 4 * 86400)
  ∧ (autoGranularity (739191 * 86400) ((739191 + 5 - 1) * 86400 + 86340) = Freq.H ↔
        5 ≤ 4) :=
  ⟨(c5_amended (739191 * 86400) (739194 * 86400 + 86340)).1,
   (c5_amended 0 0).2 739191 5 (by decide)⟩

/-- C7 as stated fails: with the range inverted (start 10:00, end 09:00 of
day 739191, so end precedes start) the flow is not rejected before querying
and no validation message is surfaced — the query runs and silently returns
the empty row set, even though the table holds a matching 09:00 booking. -/
theorem c7_counterexample :
    739191 * 86400 + 32400 < 739191 * 86400 + 36000
  ∧ case1Run [rowH9] false true (some (739191, 739191)) 36000 32400
      = FlowResult.queried [] := by decide

/-- C7 amended.  The Case 1 flow performs no range validation at all: every
request reaches the query; an enabled range whose end precedes its start is
passed through and yields an empty result set rather than a validation
message; a missing (non-two-element) date selection leaves both bounds None
so the range silently filters nothing. -/
theorem c7_amended (table : List Row) (s af : Bool)
    (dr : Option (Nat × Nat)) (t1 t2 : Nat) :
    (∃ df, case1Run table s af dr t1 t2 = FlowResult.queried df)
  ∧ (∀ d0 d1, dr = some (d0, d1) → af = true →
        d1 * 86400 + t2 < d0 * 86400 + t1 →
        case1Run table s af dr t1 t2 = FlowResult.queried [])
  ∧ (dr = none →
        case1Run table s af dr t1 t2
          = FlowResult.queried (fetch_rows table s none none af)) := by
  refine ⟨⟨_, rfl⟩, ?_, ?_⟩
  · intro d0 d1 hdr haf hlt
    subst hdr
    subst haf
    have hnil : table.filter
        (rowPred s (some (d0 * 86400 + t1)) (some (d1 * 86400 + t2)) true) = [] := by
      rw [List.filter_eq_nil_iff]
      intro a _ hcon
      simp only [rowPred, Bool.and_eq_true] at hcon
      have h2 := hcon.2
      simp only [rangeCond] at h2
      cases ht : eventDt a with
      | none => rw [ht] at h2; exact absurd h2 (by simp [between])
      | some u =>
        rw [ht] at h2
        simp only [between, Bool.and_eq_true, decide_eq_true_eq] at h2
        omega
    simp only [case1Run, fetch_rows, hnil, List.map_nil, sortByKey]
  · intro hdr
    subst hdr
    cases af with
    | false => rfl
    | true => rfl

/-- Concrete witness for the amended C7: the inverted-range request over a
one-row table reaches the query and comes back empty; a request with no
two-element date selection falls back to the unfiltered fetch. -/
theorem c7_amended_witness :
    (∃ df, case1Run [rowH9] false true (some (739191, 739191)) 36000 32400
        = FlowResult.queried df)
  ∧ case1Run [rowH9] false true (some (739191, 739191)) 36000 32400
      = FlowResult.queried []
  ∧ case1Run [rowH9] false true none 36000 32400
      = FlowResult.queried (fetch_rows [rowH9] false none none true) :=
  ⟨(c7_amended [rowH9] false true (some (739191, 739191)) 36000 32400).1,
   (c7_amended [rowH9] false true (some (739191, 739191)) 36000 32400).2.1
      739191 739191 rfl rfl (by decide),
   (c7_amended [rowH9] false true none 36000 32400).2.2 rfl⟩

theorem filterMap_temporal (df : List FetchedRow) :
    (temporalRows df).filterMap
        (fun p => (p.event_dt).map (fun t => (t, p.row.booking_id)))
      = df.filterMap (fun p => (p.event_dt).map (fun t => (t, p.row.booking_id))) := by
  induction df with
  | nil => rfl
  | cons p ps ih =>
    simp only [temporalRows] at ih ⊢
    cases hp : p.event_dt with
    | none => simp [List.filter_cons, List.filterMap_cons, hp, ih]
    | some u => simp [List.filter_cons, List.filterMap_cons, hp, ih]

/-- C8.  A fetched row whose date/time fields did not parse (NULL
`event_dt`) still appears in the tabular result of the unfiltered fetch,
is excluded from the rows feeding the time series, and leaves the bucketed
series unchanged — the whole pipeline is a total function, so a malformed
row never aborts the request. -/
theorem c8_unparseable (table : List Row) (s : Bool) (f : Freq) (r : Row)
    (hmem : r ∈ table) (hparse : eventDt r = none)
    (hsucc : s = true → successWhere r = true) :
    (⟨none, r⟩ : FetchedRow) ∈ fetch_rows table s none none false
  ∧ (⟨none, r⟩ : FetchedRow) ∉ temporalRows (fetch_rows table s none none false)
  ∧ bucketSeries f (fetch_rows table s none none false)
      = bucketSeries f (temporalRows (fetch_rows table s none none false)) := by
  refine ⟨?_, ?_, ?_⟩
  · have hpred : rowPred s none none false r = true := by
      cases s with
      | false => simp [rowPred, rangeCond]
      | true => simp [rowPred, rangeCond, hsucc rfl]
    have h1 : (⟨eventDt r, r⟩ : FetchedRow) ∈
        (table.filter (rowPred s none none false)).map (fun r => ⟨eventDt r, r⟩) :=
      List.mem_map_of_mem _ (List.mem_filter.mpr ⟨hmem, hpred⟩)
    rw [hparse] at h1
    exact ((sortByKey_perm _ _).mem_iff).mpr h1
  · intro hcontra
    simp only [temporalRows, List.mem_filter, Option.isSome_none] at hcontra
    exact Bool.noConfusion hcontra.2
  · rw [bucketSeries, bucketSeries, filterMap_temporal]

/-- Row whose date field cannot be parsed as a timestamp. -/
def rowBad : Row :=
  ⟨some "not-a-date", none, some "Success", some "B9", none⟩

/-- Concrete witness for C8: the unparseable row of a two-row table. -/
theorem c8_unparseable_witness :
    ((⟨none, rowBad⟩ : FetchedRow) ∈ fetch_rows [rowBad, rowH9] true none none false)
  ∧ ((⟨none, rowBad⟩ : FetchedRow) ∉
      temporalRows (fetch_rows [rowBad, rowH9] true none none false))
  ∧ bucketSeries Freq.D (fetch_rows [rowBad, rowH9] true none none false)
      = bucketSeries Freq.D
          (temporalRows (fetch_rows [rowBad, rowH9] true none none false)) :=
  c8_unparseable [rowBad, rowH9] true Freq.D rowBad (by decide) (by decide)
    (fun h => by decide)

/-- C9.  The min/max probe applies the same success semantics as the row
fetch: `fetch_minmax` returns exactly the minimum and maximum normalized
event timestamp over the rows returned by
`fetch_rows(successOnly, None, None, false)` (SQL MIN/MAX skip the NULL
timestamps of unparseable rows and give NULL on an empty set). -/
theorem c9_minmax (table : List Row) (s : Bool) :
    fetch_minmax table s
      = (listMin ((fetch_rows table s none none false).filterMap
            (fun p => p.event_dt)),
         listMax ((fetch_rows table s none none false).filterMap
            (fun p => p.event_dt))) := by
  have hfil : table.filter (rowPred s none none false)
      = table.filter (fun r => !s || successWhere r) :=
    List.filter_congr (fun a _ => by simp [rowPred, rangeCond])
  have hperm : ((fetch_rows table s none none false).filterMap
      (fun p => p.event_dt)).Perm
      (((table.filter (fun r => !s || successWhere r)).map eventDt).filterMap id) := by
    unfold fetch_rows
    refine ((sortByKey_perm _ _).filterMap _).trans ?_
    rw [hfil, List.filterMap_map, List.filterMap_map]
    exact List.Perm.refl _
  simp only [fetch_minmax]
  rw [listMin_perm hperm, listMax_perm hperm]

example : parseDT "2024-01-01" = some (739191 * 86400) := by decide
example : parseDT "2024-01-01 09:30" = some (739191 * 86400 + 34200) := by decide
example : parseDT "garbage" = none := by decide
example : sqlDateStr "2024-01-01 05:00:00" = some "2024-01-01" := by decide
example :
    eventDt ⟨some "2024-01-01 05:00:00", some " 09:30 ", none, none, none⟩
      = some (739191 * 86400 + 34200) := by decide
example :
    eventDt ⟨some "2024-01-02", some "  ", some " Success ", none, none⟩
      = some (739192 * 86400) := by decide
example : successWhere ⟨none, none, some " Success ", none, none⟩ = false := by decide
example : successWhere ⟨none, none, some "SUCCESS", none, none⟩ = true := by decide
